import Mathlib

/-!
Verification of the streaming log store of the opnsense-log-viewer
repository against its natural-language specification.

The development shallowly embeds the Python sources:
  - log_parser.py / src/opnsense_log_viewer/services/log_parser.py
    (grammar decoder `parse_log_line`, `_parse_fields`),
  - log_filter.py (FilterCondition, FilterExpression),
  - src/opnsense_log_viewer/services/parallel_filter.py
    (filter_chunk_data, ParallelLogFilter.apply_filter_parallel,
     OptimizedFilterFunction),
  - virtual_log_manager.py (LogFileIndex, VirtualLogManager: load_file,
    get_chunk, _get_raw_entries, get_total_entries,
    _apply_threaded_filter).

Files are modelled at line granularity: a file is the list of its
physical lines (without trailing newlines); the byte-offset index
`LogFileIndex` resolves a (start_line, count) request to exactly the
byte slice holding those lines, so chunk reads become `drop`/`take` on
the line list.  Python library calls (re, float, md5, datetime.now) are
oracles in a `PyEnv` record; `datetime.strptime` with the fixed format
string and `datetime.fromisoformat` are modelled concretely.  The LRU
chunk cache is value-transparent (get after put returns the stored
chunk), so chunk loads are modelled cacheless.  Python `list.sort` is
modelled by insertion sort; worker pools only reorder per-job result
lists before the final sort, so job results are concatenated in job
order.
-/

/-! ## Python string primitives -/

/-- Boolean test that the first list is a prefix of the second
(character-wise equality). -/
def charsPrefixOf : List Char → List Char → Bool
  | [], _ => true
  | _ :: _, [] => false
  | a :: as, b :: bs => a == b && charsPrefixOf as bs

/-- Boolean test that `needle` occurs contiguously inside `hay`:
the model of the Python `in` operator on strings. -/
def charsInfixOf (needle : List Char) : List Char → Bool
  | [] => charsPrefixOf needle []
  | c :: cs => charsPrefixOf needle (c :: cs) || charsInfixOf needle cs

/-- Python `sub in s` for strings. -/
def pyIn (sub s : String) : Bool :=
  charsInfixOf sub.toList s.toList

/-- Accumulating splitter behind `pyWords`; `cur` holds the current word
reversed.  Models CPython `str.split()` with no argument: split on runs
of whitespace, discarding empty fields. -/
def pyWordsAux : List Char → List Char → List (List Char)
  | [], cur => if cur.isEmpty then [] else [cur.reverse]
  | c :: cs, cur =>
    if c.isWhitespace then
      if cur.isEmpty then pyWordsAux cs [] else cur.reverse :: pyWordsAux cs []
    else
      pyWordsAux cs (c :: cur)

/-- Python `line.split()` (no separator argument) on the character list. -/
def pyWords (cs : List Char) : List (List Char) :=
  pyWordsAux cs []

/-- Python `line.split()` returning strings. -/
def pySplitWs (s : String) : List String :=
  (pyWords s.toList).map (fun w => String.mk w)

/-- Python `s.split(sep)` for a single-character separator: keeps empty
fields, and the empty string yields one empty field. -/
def pySplitChar (sep : Char) : List Char → List (List Char)
  | [] => [[]]
  | c :: cs =>
    if c == sep then [] :: pySplitChar sep cs
    else
      match pySplitChar sep cs with
      | [] => [[c]]
      | w :: ws => (c :: w) :: ws

/-- Python `s.split(",")` on strings. -/
def pySplitComma (s : String) : List String :=
  (pySplitChar ',' s.toList).map (fun w => String.mk w)

/-- Python `s.replace("T", " ")` (single-character pattern). -/
def pyReplaceChar (a b : Char) (s : String) : String :=
  String.mk (s.toList.map (fun c => if c == a then b else c))

/-- Python `s.strip()`: remove leading and trailing whitespace. -/
def pyStrip (s : String) : String :=
  String.mk
    (((s.toList.dropWhile (fun c => c.isWhitespace)).reverse.dropWhile
        (fun c => c.isWhitespace)).reverse)

/-- Python `s.lower()` (ASCII-adequate model). -/
def pyLower (s : String) : String :=
  String.mk (s.toList.map (fun c => c.toLower))

/-- Python `s.startswith(pre)`. -/
def pyStartsWith (s pre : String) : Bool :=
  charsPrefixOf pre.toList s.toList

/-- Python `s.endswith(suf)`. -/
def pyEndsWith (s suf : String) : Bool :=
  charsPrefixOf suf.toList.reverse s.toList.reverse

/-! ## Python dict over string keys (insertion-ordered association list) -/

/-- Insertion-ordered association list standing in for a Python `dict`
with string keys and string values. -/
abbrev PyDict := List (String × String)

/-- Lookup in a `PyDict` (first matching key wins; keys are unique by
construction through `dictSet`). -/
def dictGet : PyDict → String → Option String
  | [], _ => none
  | (k, v) :: rest, key => if k == key then some v else dictGet rest key

/-- Python `d[k] = v`: replaces the value in place if the key exists,
otherwise appends the binding. -/
def dictSet : PyDict → String → String → PyDict
  | [], k, v => [(k, v)]
  | (k', v') :: rest, k, v =>
    if k' == k then (k', v) :: rest else (k', v') :: dictSet rest k v

/-- Python `k in d`. -/
def dictContains (d : PyDict) (k : String) : Bool :=
  (dictGet d k).isSome

theorem dictGet_dictSet_self (d : PyDict) (k v : String) :
    dictGet (dictSet d k v) k = some v := by
  induction d with
  | nil => simp [dictSet, dictGet]
  | cons p rest ih =>
    obtain ⟨k', v'⟩ := p
    by_cases h : k' = k
    · subst h; simp [dictSet, dictGet]
    · simp [dictSet, dictGet, h, ih]

theorem dictGet_dictSet_ne (d : PyDict) (k k' v : String) (h : k' ≠ k) :
    dictGet (dictSet d k v) k' = dictGet d k' := by
  induction d with
  | nil => simp [dictSet, dictGet, beq_iff_eq, Ne.symm h]
  | cons p rest ih =>
    obtain ⟨k₀, v₀⟩ := p
    by_cases h₀ : k₀ = k
    · subst h₀
      simp [dictSet, dictGet, beq_iff_eq, Ne.symm h]
    · simp [dictSet, dictGet, h₀, ih]

/-! ## Model of the Python datetime values used by the decoder -/

/-- Instant with second precision, standing in for `datetime.datetime`
(microseconds are not needed by any claim and are dropped). -/
structure PyDateTime where
  year : Nat
  month : Nat
  day : Nat
  hour : Nat
  minute : Nat
  second : Nat
deriving DecidableEq, Inhabited, Repr

/-- Gregorian leap-year test, as in `datetime`. -/
def isLeapYear (y : Nat) : Bool :=
  (y % 4 == 0 && y % 100 != 0) || y % 400 == 0

/-- Days in a month, used by the `datetime` constructor validation. -/
def daysInMonth (y m : Nat) : Nat :=
  if m == 2 then (if isLeapYear y then 29 else 28)
  else if m == 4 || m == 6 || m == 9 || m == 11 then 30
  else 31

/-- Numeric value of a decimal digit character. -/
def digitVal (c : Char) : Nat := c.toNat - '0'.toNat

/-- Consume exactly `n` decimal digits, returning their value. -/
def parseExactDigits : Nat → List Char → Option (Nat × List Char)
  | 0, cs => some (0, cs)
  | _ + 1, [] => none
  | n + 1, c :: cs =>
    if c.isDigit then
      match parseExactDigits n cs with
      | some (v, rest) => some (digitVal c * 10 ^ n + v, rest)
      | none => none
    else none

/-- Consume one or two decimal digits greedily, returning their value:
the shape `strptime` uses for day, hour, minute and second fields. -/
def parseOneTwoDigits : List Char → Option (Nat × List Char)
  | [] => none
  | [c] => if c.isDigit then some (digitVal c, []) else none
  | c1 :: c2 :: rest =>
    if c1.isDigit then
      if c2.isDigit then some (digitVal c1 * 10 + digitVal c2, rest)
      else some (digitVal c1, c2 :: rest)
    else none

/-- Consume one mandatory whitespace character and any further run of
whitespace: the regex `\s+` that `strptime` substitutes for a space in
the format string. -/
def skipWsOnePlus : List Char → Option (List Char)
  | [] => none
  | c :: cs =>
    if c.isWhitespace then some (cs.dropWhile (fun d => d.isWhitespace)) else none

/-- Month number of a three-letter English abbreviation,
case-insensitive, as matched by `strptime`'s `%b`. -/
def monthAbbrevNum (a b c : Char) : Option Nat :=
  let w := String.mk [a.toLower, b.toLower, c.toLower]
  if w == "jan" then some 1 else if w == "feb" then some 2
  else if w == "mar" then some 3 else if w == "apr" then some 4
  else if w == "may" then some 5 else if w == "jun" then some 6
  else if w == "jul" then some 7 else if w == "aug" then some 8
  else if w == "sep" then some 9 else if w == "oct" then some 10
  else if w == "nov" then some 11 else if w == "dec" then some 12
  else none

/-- Tail of `strptimeMonthDay` after the month and first whitespace run:
day, whitespace, `HH:MM:SS`, end of string.  Field ranges follow the
`datetime` constructor (which raises `ValueError` outside them). -/
def strptimeMonthDayRest (m : Nat) : List Char → Option PyDateTime :=
  fun cs =>
    match parseOneTwoDigits cs with
    | none => none
    | some (d, cs1) =>
      if d < 1 || daysInMonth 1900 m < d then none
      else
        match skipWsOnePlus cs1 with
        | none => none
        | some cs2 =>
          match parseOneTwoDigits cs2 with
          | none => none
          | some (h, cs3) =>
            if 23 < h then none
            else
              match cs3 with
              | ':' :: cs4 =>
                match parseOneTwoDigits cs4 with
                | none => none
                | some (mi, cs5) =>
                  if 59 < mi then none
                  else
                    match cs5 with
                    | ':' :: cs6 =>
                      match parseOneTwoDigits cs6 with
                      | none => none
                      | some (sec, cs7) =>
                        if 59 < sec || !cs7.isEmpty then none
                        else some ⟨1900, m, d, h, mi, sec⟩
                    | _ => none
              | _ => none

/-- Model of `datetime.strptime(s, "%b %d %H:%M:%S")`: month
abbreviation, at least one whitespace character, day, at least one
whitespace character, time, end of input.  The year defaults to 1900,
as `strptime` does when the format carries no year directive. -/
def strptimeMonthDay (s : String) : Option PyDateTime :=
  match s.toList with
  | a :: b :: c :: rest =>
    match monthAbbrevNum a b c with
    | none => none
    | some m =>
      match skipWsOnePlus rest with
      | none => none
      | some cs => strptimeMonthDayRest m cs
  | _ => none

/-- Time-of-day tail of `pyFromIso`: `HH[:MM[:SS[.fff[fff]]]]` with
full-input consumption, per the CPython (≤ 3.10) grammar of
`datetime.fromisoformat`. -/
def pyFromIsoTime (y m d : Nat) : List Char → Option PyDateTime
  | cs =>
    match parseExactDigits 2 cs with
    | none => none
    | some (h, cs1) =>
      if 23 < h then none
      else
        match cs1 with
        | [] => some ⟨y, m, d, h, 0, 0⟩
        | ':' :: cs2 =>
          match parseExactDigits 2 cs2 with
          | none => none
          | some (mi, cs3) =>
            if 59 < mi then none
            else
              match cs3 with
              | [] => some ⟨y, m, d, h, mi, 0⟩
              | ':' :: cs4 =>
                match parseExactDigits 2 cs4 with
                | none => none
                | some (sec, cs5) =>
                  if 59 < sec then none
                  else
                    match cs5 with
                    | [] => some ⟨y, m, d, h, mi, sec⟩
                    | '.' :: frac =>
                      if (frac.length == 3 || frac.length == 6)
                          && frac.all (fun c => c.isDigit) then
                        some ⟨y, m, d, h, mi, sec⟩
                      else none
                    | _ => none
              | _ => none
        | _ => none

/-- Model of `datetime.fromisoformat`: `YYYY-MM-DD`, optionally
followed by a one-character separator and a time of day (the CPython
≤ 3.10 grammar; fractional seconds are accepted and dropped). -/
def pyFromIso (s : String) : Option PyDateTime :=
  match parseExactDigits 4 s.toList with
  | none => none
  | some (y, cs1) =>
    match cs1 with
    | '-' :: cs2 =>
      match parseExactDigits 2 cs2 with
      | none => none
      | some (m, cs3) =>
        if m < 1 || 12 < m then none
        else
          match cs3 with
          | '-' :: cs4 =>
            match parseExactDigits 2 cs4 with
            | none => none
            | some (d, cs5) =>
              if d < 1 || daysInMonth y m < d then none
              else
                match cs5 with
                | [] => some ⟨y, m, d, 0, 0, 0⟩
                | _sep :: rest => pyFromIsoTime y m d rest
          | _ => none
    | _ => none

/-! ## Ambient Python library oracles and the LogEntry record -/

/-- Ambient Python facilities used by the sources: `datetime.now()`
(the ingest instant), `re.compile` (pattern, IGNORECASE flag; `none`
models a `re.error` at compile, `some search` the compiled pattern's
`search` returning a truthy match), `float()` (`none` models
`ValueError`/`TypeError`), and `hashlib.md5(...).hexdigest()`. -/
structure PyEnv where
  now : PyDateTime
  regexCompile : String → Bool → Option (String → Bool)
  pyFloat : String → Option Rat
  md5hex : String → String

/-- Parsed log entry, translated from class `LogEntry` of
log_parser.py (fields `raw_line`, `parsed_data`, `timestamp`, `host`,
`digest`; the class has no further attributes). -/
structure LogEntry where
  raw_line : String
  parsed_data : PyDict
  timestamp : PyDateTime
  host : String
  digest : String
deriving DecidableEq, Inhabited, Repr

/-- Python `entry.get(key, '')` from `LogEntry.get`. -/
def LogEntry.get (e : LogEntry) (key : String) : String :=
  (dictGet e.parsed_data key).getD ""

/-! ## Grammar decoder (parse_log_line and helpers) -/

/-- Python exceptions that the embedding tracks explicitly. -/
inductive PyErr where
  | indexError
  | keyError
deriving DecidableEq, Repr

deriving instance DecidableEq for Except

/-- Translation of the `proto_map` lookup in `_parse_fields`:
`{'6': 'tcp', '17': 'udp', '1': 'icmp', '112': 'carp'}.get(p, p)`. -/
def protoMapGet (p : String) : String :=
  if p == "6" then "tcp" else if p == "17" then "udp"
  else if p == "1" then "icmp" else if p == "112" then "carp" else p

/-- Translation of `OPNsenseLogParser._parse_fields` (identical in
log_parser.py and services/log_parser.py): positional assignment with
`fields[i] if len(fields) > i else ''`, the nested IPv4 / TCP-UDP / TCP
blocks, and the protocol-name normalization.  Every subscript in the
source is guarded by a length test, so the surrounding
`except (IndexError, ValueError)` is unreachable and the function is
total. -/
def parseFields (fields : List String) : PyDict :=
  let g : Nat → String := fun i => fields.getD i ""
  let rule : PyDict := []
  let rule := dictSet rule "rulenr" (g 0)
  let rule := dictSet rule "subrulenr" (g 1)
  let rule := dictSet rule "anchorname" (g 2)
  let rule := dictSet rule "rid" (g 3)
  let rule := dictSet rule "interface" (g 4)
  let rule := dictSet rule "reason" (g 5)
  let rule := dictSet rule "action" (g 6)
  let rule := dictSet rule "dir" (g 7)
  let rule := dictSet rule "ipversion" (g 8)
  let rule :=
    if (dictGet rule "ipversion").getD "" == "4" && decide (fields.length > 9) then
      let rule := dictSet rule "tos" (g 9)
      let rule := dictSet rule "ecn" (g 10)
      let rule := dictSet rule "ttl" (g 11)
      let rule := dictSet rule "id" (g 12)
      let rule := dictSet rule "offset" (g 13)
      let rule := dictSet rule "ipflags" (g 14)
      let rule := dictSet rule "protonum" (g 15)
      let rule := dictSet rule "protoname" (g 16)
      let rule := dictSet rule "length" (g 17)
      let rule := dictSet rule "src" (g 18)
      let rule := dictSet rule "dst" (g 19)
      let pn := (dictGet rule "protonum").getD ""
      if (pn == "6" || pn == "17") && decide (fields.length > 20) then
        let rule := dictSet rule "srcport" (g 20)
        let rule := dictSet rule "dstport" (g 21)
        let rule := dictSet rule "datalen" (g 22)
        if pn == "6" && decide (fields.length > 23) then
          let rule := dictSet rule "tcpflags" (g 23)
          let rule := dictSet rule "seq" (g 24)
          let rule := dictSet rule "ack" (g 25)
          let rule := dictSet rule "urp" (g 26)
          dictSet rule "tcpopts" (g 27)
        else rule
      else rule
    else rule
  if dictContains rule "protonum" then
    dictSet rule "protoname" (protoMapGet ((dictGet rule "protonum").getD ""))
  else rule

/-- Timestamp conversion block of `parse_log_line`: if the token
contains `'T'`, `datetime.fromisoformat` on the token with `'T'`
replaced by a space, else `datetime.strptime(token, "%b %d %H:%M:%S")`;
any exception is caught and replaced by `datetime.now()`. -/
def pyParseTimestampToken (env : PyEnv) (tok : String) : PyDateTime :=
  if pyIn "T" tok then (pyFromIso (pyReplaceChar 'T' ' ' tok)).getD env.now
  else (strptimeMonthDay tok).getD env.now

/-- CSV payload decoding steps of `parse_log_line`: `data_part` is the
space-join of the tokens after the `filterlog` token, split on commas,
each field stripped, then run through `_parse_fields`. -/
def decodePayload (line : String) (filterlog_idx : Nat) : PyDict :=
  parseFields ((pySplitComma (String.intercalate " "
    ((pySplitWs line).drop (filterlog_idx + 1)))).map (fun f => pyStrip f))

/-- Enrichment steps of `parse_log_line` after `_parse_fields`
succeeded: `interface_display` resolution through `interface_mapping`,
then the `__timestamp__`, `__host__` and `__digest__` metadata keys. -/
def finishRule (env : PyEnv) (mapping : PyDict) (line timestamp_str : String)
    (rule : PyDict) : PyDict :=
  let rule :=
    if dictContains rule "interface"
        && dictContains mapping ((dictGet rule "interface").getD "") then
      dictSet rule "interface_display"
        ((dictGet mapping ((dictGet rule "interface").getD "")).getD "")
    else
      dictSet rule "interface_display" ((dictGet rule "interface").getD "")
  let rule := dictSet rule "__timestamp__" timestamp_str
  let rule := dictSet rule "__host__" "opnsense"
  dictSet rule "__digest__" (env.md5hex line)

/-- Translation of `OPNsenseLogParser.parse_log_line` from
log_parser.py, with the two subscripts the source leaves unguarded —
`parts[0]` and the final `rule['__digest__']` — modelled as explicit
`Except` error sites so that totality ("never raises") is a theorem
rather than an artefact of the embedding.  `mapping` is the parser's
`interface_mapping`; `parts` of the source is `pySplitWs line`, and the
single-use locals of the source are factored into `decodePayload` and
`finishRule` above.  Returns `.ok none` for "not a record". -/
def parseLogLineE (env : PyEnv) (mapping : PyDict) (line : String) :
    Except PyErr (Option LogEntry) :=
  if !(pyIn "filterlog" line) then .ok none
  else if (pySplitWs line).length < 4 then .ok none
  else
    match pySplitWs line with
    | [] => .error .indexError
    | timestamp_str :: _ =>
      match List.findIdx? (fun p => pyIn "filterlog" p) (pySplitWs line) with
      | none => .ok none
      | some filterlog_idx =>
        if (pySplitWs line).length ≤ filterlog_idx + 1 then .ok none
        else if (decodePayload line filterlog_idx).isEmpty
            || !(dictContains (decodePayload line filterlog_idx) "action") then
          .ok none
        else
          match dictGet (finishRule env mapping line timestamp_str
              (decodePayload line filterlog_idx)) "__digest__" with
          | none => .error .keyError
          | some dg =>
            .ok (some { raw_line := line,
                        parsed_data := finishRule env mapping line timestamp_str
                          (decodePayload line filterlog_idx),
                        timestamp := pyParseTimestampToken env timestamp_str,
                        host := "opnsense", digest := dg })

/-- Translation of `OPNsenseLogParser.parse_log_line` from
services/log_parser.py: the same logic wrapped in a `try/except` that
turns any exception into `None` (its extra `not line` guard is
behaviourally redundant, as the empty string contains no `filterlog`). -/
def parseLogLine (env : PyEnv) (mapping : PyDict) (line : String) :
    Option LogEntry :=
  match parseLogLineE env mapping line with
  | .ok r => r
  | .error _ => none

/-! ## Predicate layer (log_filter.py and OptimizedFilterFunction) -/

/-- Translation of class `FilterCondition` (log_filter.py): field,
operator, comparison value, case flag. -/
structure FilterCondition where
  field : String
  operator : String
  value : String
  case_sensitive : Bool
deriving DecidableEq, Inhabited, Repr

/-- Translation of `FilterCondition.__init__` (log_filter.py lines
13-17): four attribute assignments and nothing else, so construction
cannot raise; the `Except` codomain records that no exception site
exists. -/
def filterConditionInit (field operator value : String)
    (case_sensitive : Bool) : Except PyErr FilterCondition :=
  .ok ⟨field, operator, value, case_sensitive⟩

/-- Translation of `FilterCondition._numeric_compare`: both sides
through `float()`, any `ValueError`/`TypeError` yields `False`. -/
def numericCompare (env : PyEnv) (fv cv : String) (f : Rat → Rat → Bool) : Bool :=
  match env.pyFloat fv, env.pyFloat cv with
  | some a, some b => f a b
  | _, _ => false

/-- Translation of `FilterCondition._check_value_match`: lower-case
both sides unless case-sensitive, then dispatch on the operator string;
the surrounding `except Exception: return False` catches the only
raising operation (`re.compile` on a malformed pattern), modelled by
the `none` branch of the regex oracle. -/
def checkValueMatch (env : PyEnv) (c : FilterCondition) (field_value : String) : Bool :=
  let fv := if !c.case_sensitive then pyLower field_value else field_value
  let cv := if !c.case_sensitive then pyLower c.value else c.value
  if c.operator == "==" then fv == cv
  else if c.operator == "!=" then fv != cv
  else if c.operator == "contains" then pyIn cv fv
  else if c.operator == "startswith" then pyStartsWith fv cv
  else if c.operator == "endswith" then pyEndsWith fv cv
  else if c.operator == "regex" then
    match env.regexCompile c.value (!c.case_sensitive) with
    | none => false
    | some search => search fv
  else if c.operator == ">" then numericCompare env fv cv (fun x y => decide (y < x))
  else if c.operator == "<" then numericCompare env fv cv (fun x y => decide (x < y))
  else if c.operator == ">=" then numericCompare env fv cv (fun x y => decide (y ≤ x))
  else if c.operator == "<=" then numericCompare env fv cv (fun x y => decide (x ≤ y))
  else false

/-- Translation of `FilterCondition.evaluate`: the `interface` field is
tested against both the physical name and `interface_display`; every
other field is read with `entry.get(field, '')`. -/
def FilterCondition.evaluate (env : PyEnv) (c : FilterCondition) (entry : LogEntry) : Bool :=
  if c.field == "interface" then
    let field_value := entry.get "interface"
    let interface_display := entry.get "interface_display"
    if checkValueMatch env c field_value || checkValueMatch env c interface_display then
      true
    else false
  else
    checkValueMatch env c (entry.get c.field)

/-- Translation of class `FilterExpression` (log_filter.py): parallel
lists of conditions, connectives and negation flags. -/
structure FilterExpression where
  conditions : List FilterCondition
  operators : List String
  negations : List Bool
deriving Inhabited, Repr

/-- Translation of `FilterExpression.add_condition`: appends the
condition and its negation flag, and the connective once a second
condition exists. -/
def FilterExpression.addCondition (fe : FilterExpression)
    (c : FilterCondition) (operator : String) (negate : Bool) : FilterExpression :=
  let conditions := fe.conditions ++ [c]
  let negations := fe.negations ++ [negate]
  if conditions.length > 1 then
    { conditions := conditions, negations := negations,
      operators := fe.operators ++ [operator] }
  else
    { conditions := conditions, negations := negations,
      operators := fe.operators }

/-- Loop of `FilterExpression.evaluate` over indices `1 ≤ i <
len(conditions)` (the first argument counts the remaining iterations,
the second is `i`): evaluate `conditions[i]`, negate per
`negations[i]`, combine with `operators[i-1]` — no short-circuit.
Out-of-range subscripts (unreachable for expressions built by
`add_condition`) are modelled by defaults. -/
def exprEvalLoop (env : PyEnv) (entry : LogEntry) (conds : List FilterCondition)
    (ops : List String) (negs : List Bool) : Nat → Nat → Bool → Bool
  | 0, _, result => result
  | k + 1, i, result =>
    let cr := FilterCondition.evaluate env (conds.getD i default) entry
    let cr := if negs.getD i false then !cr else cr
    let op := ops.getD (i - 1) ""
    let result :=
      if op == "AND" then result && cr
      else if op == "OR" then result || cr
      else result
    exprEvalLoop env entry conds ops negs k (i + 1) result

/-- Translation of `FilterExpression.evaluate`: empty expression is
`True`; otherwise evaluate condition 0 (with its negation) and fold the
rest strictly left to right without short-circuit. -/
def FilterExpression.evaluate (env : PyEnv) (fe : FilterExpression) (entry : LogEntry) : Bool :=
  match fe.conditions with
  | [] => true
  | c0 :: _ =>
    let r0 := FilterCondition.evaluate env c0 entry
    let r0 := if fe.negations.getD 0 false then !r0 else r0
    exprEvalLoop env entry fe.conditions fe.operators fe.negations
      (fe.conditions.length - 1) 1 r0

/-- Translation of `OptimizedFilterFunction._check_value_match_fast`
(parallel_filter.py): inline paths for `==`, `contains`, `!=`, all
other operators delegated to `FilterCondition._check_value_match`. -/
def checkValueMatchFast (env : PyEnv) (c : FilterCondition) (field_value : String) : Bool :=
  let fv := if !c.case_sensitive then pyLower field_value else field_value
  let cv := if !c.case_sensitive then pyLower c.value else c.value
  if c.operator == "==" then fv == cv
  else if c.operator == "contains" then pyIn cv fv
  else if c.operator == "!=" then fv != cv
  else checkValueMatch env c field_value

/-- Translation of `OptimizedFilterFunction._evaluate_single_condition`:
the `interface` OR-fold, the `__label__` pseudo-field read from the
pre-computed `__rule_label__`, and the generic field read. -/
def evalSingleConditionFast (env : PyEnv) (c : FilterCondition) (entry : LogEntry) : Bool :=
  if c.field == "interface" then
    let field_value := entry.get "interface"
    let interface_display := entry.get "interface_display"
    if checkValueMatchFast env c field_value
        || checkValueMatchFast env c interface_display then true
    else false
  else if c.field == "__label__" then
    checkValueMatchFast env c (entry.get "__rule_label__")
  else
    checkValueMatchFast env c (entry.get c.field)

/-- Loop of `OptimizedFilterFunction._evaluate_conditions_fast` over
indices `i ≥ 1`: reads `operators[i-1]` first and returns early —
`False` when the connective is AND and the running result is false,
`True` when it is OR and the running result is true — before
evaluating `conditions[i]`. -/
def exprEvalFastLoop (env : PyEnv) (entry : LogEntry) (conds : List FilterCondition)
    (ops : List String) (negs : List Bool) : Nat → Nat → Bool → Bool
  | 0, _, result => result
  | k + 1, i, result =>
    let op := ops.getD (i - 1) ""
    if op == "AND" && !result then false
    else if op == "OR" && result then true
    else
      let cr := evalSingleConditionFast env (conds.getD i default) entry
      let cr := if negs.getD i false then !cr else cr
      let result :=
        if op == "AND" then result && cr
        else if op == "OR" then result || cr
        else result
      exprEvalFastLoop env entry conds ops negs k (i + 1) result

/-- Translation of wrapper class `OptimizedFilterFunction`
(parallel_filter.py): the expression's three lists plus the optional
time window copied at construction. -/
structure OptimizedFilterFunction where
  conditions : List FilterCondition
  operators : List String
  negations : List Bool
  time_filter_enabled : Bool
  time_range_start : Option PyDateTime
  time_range_end : Option PyDateTime
deriving Inhabited, Repr

/-- Lexicographic strict order on instants, the model of `datetime`
comparison. -/
def PyDateTime.ltb (a b : PyDateTime) : Bool :=
  if a.year != b.year then decide (a.year < b.year)
  else if a.month != b.month then decide (a.month < b.month)
  else if a.day != b.day then decide (a.day < b.day)
  else if a.hour != b.hour then decide (a.hour < b.hour)
  else if a.minute != b.minute then decide (a.minute < b.minute)
  else decide (a.second < b.second)

/-- Translation of `OptimizedFilterFunction._evaluate_conditions_fast`:
condition 0 evaluated unconditionally, then the short-circuiting loop. -/
def evaluateConditionsFast (env : PyEnv) (f : OptimizedFilterFunction) (entry : LogEntry) : Bool :=
  match f.conditions with
  | [] => true
  | c0 :: _ =>
    let r0 := evalSingleConditionFast env c0 entry
    let r0 := if f.negations.getD 0 false then !r0 else r0
    exprEvalFastLoop env entry f.conditions f.operators f.negations
      (f.conditions.length - 1) 1 r0

/-- Translation of `OptimizedFilterFunction.__call__`: the optional
time window first, then `True` for an empty condition list, else the
fast evaluation. -/
def OptimizedFilterFunction.call (env : PyEnv) (f : OptimizedFilterFunction)
    (entry : LogEntry) : Bool :=
  if f.time_filter_enabled
      && (match f.time_range_start with
          | some s => PyDateTime.ltb entry.timestamp s
          | none => false) then false
  else if f.time_filter_enabled
      && (match f.time_range_end with
          | some e => PyDateTime.ltb e entry.timestamp
          | none => false) then false
  else if f.conditions.isEmpty then true
  else evaluateConditionsFast env f entry

/-! ## Virtual store (virtual_log_manager.py) -/

/-- State of `VirtualLogManager` after `load_file`: the configured
`chunk_size`, the file content as its list of physical lines, and the
filter state.  `total_entries` is assigned from
`file_index.total_lines` in `load_file`. -/
structure VirtualState where
  chunk_size : Nat
  lines : List String
  total_entries : Nat
  filtered_indices : List Nat
  is_filtered : Bool
deriving Inhabited, Repr

/-- Translation of `VirtualLogManager.load_file` (preceded by
`__init__`): clears cache and filter state, builds the line index, and
sets `total_entries` to the physical line count
(`file_index.total_lines`). -/
def loadFile (chunk_size : Nat) (lines : List String) : VirtualState :=
  { chunk_size := chunk_size, lines := lines, total_entries := lines.length,
    filtered_indices := [], is_filtered := false }

/-- Translation of `VirtualLogManager.get_chunk` with the LRU cache
made transparent: resolve `start_line = chunk_id * chunk_size`, read up
to `chunk_size` physical lines, parse each stripped line, keep the
successfully decoded entries. -/
def getChunk (env : PyEnv) (mapping : PyDict) (st : VirtualState) (chunk_id : Nat) :
    List LogEntry :=
  let start_line := chunk_id * st.chunk_size
  if st.lines.length ≤ start_line then []
  else
    ((st.lines.drop start_line).take st.chunk_size).filterMap
      (fun l => parseLogLine env mapping (pyStrip l))

/-- Translation of `VirtualLogManager.get_total_entries`. -/
def getTotalEntries (st : VirtualState) : Nat :=
  if st.is_filtered then st.filtered_indices.length else st.total_entries

/-- Common postcondition of the three `apply_filter` code paths
(multiprocessing, threaded, sequential): store the computed match list
and flip `is_filtered`. -/
def applyFilterVia (st : VirtualState) (ms : List Nat) : VirtualState :=
  { st with filtered_indices := ms, is_filtered := true }

/-- Translation of `VirtualLogManager.clear_filter`. -/
def clearFilter (st : VirtualState) : VirtualState :=
  { st with filtered_indices := [], is_filtered := false }

/-- Loop body of `VirtualLogManager._get_raw_entries`.  The loop is
not structurally terminating (when `take_count ≤ 0` no state
component advances), so the model takes a fuel argument; `none` means
the budget was exhausted without the `while` loop finishing.
`take_count` is an integer exactly as in Python, where
`len(chunk) - chunk_offset` can be negative; the slice
`chunk[chunk_offset : chunk_offset + take_count]` is then empty, and
the updated `current_index`, which stays non-negative in every
reachable state, is stored back as a natural number. -/
def rawEntriesLoop (env : PyEnv) (mapping : PyDict) (st : VirtualState) :
    Nat → Nat → Nat → List LogEntry → Option (List LogEntry)
  | 0, _, _, _ => none
  | fuel + 1, current_index, remaining, entries =>
    if remaining == 0 || st.total_entries ≤ current_index then some entries
    else
      let chunk_id := current_index / st.chunk_size
      let chunk_offset := current_index % st.chunk_size
      let chunk := getChunk env mapping st chunk_id
      if chunk.isEmpty then some entries
      else
        let take_count : Int :=
          min (remaining : Int) ((chunk.length : Int) - (chunk_offset : Int))
        let entries := entries ++ (chunk.drop chunk_offset).take take_count.toNat
        rawEntriesLoop env mapping st fuel
          (((current_index : Int) + take_count)).toNat
          (((remaining : Int) - take_count)).toNat entries

/-- Translation of `VirtualLogManager._get_raw_entries` (the
UNFILTERED branch of `get_entries`) under a fuel budget. -/
def getRawEntries (env : PyEnv) (mapping : PyDict) (st : VirtualState)
    (fuel start_index count : Nat) : Option (List LogEntry) :=
  rawEntriesLoop env mapping st fuel start_index count []

/-! ## Filter engines (parallel_filter.py and _apply_threaded_filter) -/

/-- Insertion step of the model of Python `list.sort()`. -/
def insertSorted (x : Nat) : List Nat → List Nat
  | [] => [x]
  | y :: ys => if x ≤ y then x :: y :: ys else y :: insertSorted x ys

/-- Model of Python `list.sort()` on the collected match indices. -/
def pySort (l : List Nat) : List Nat :=
  l.foldr insertSorted []

/-- Rule-label enrichment block of `filter_chunk_data`: with a truthy
`rule_labels_mapping` and a `rid` key, store the looked-up label (or
`""`), otherwise store `""`.  `none` models passing
`rule_labels_mapping=None`, which is what
`VirtualLogManager.apply_filter` does. -/
def addRuleLabel (labels : Option PyDict) (e : LogEntry) : LogEntry :=
  match labels with
  | some ls =>
    if !ls.isEmpty && dictContains e.parsed_data "rid" then
      let rid := (dictGet e.parsed_data "rid").getD ""
      if dictContains ls rid then
        let lbl := (dictGet ls rid).getD ""
        { e with parsed_data := dictSet e.parsed_data "__rule_label__" lbl }
      else
        { e with parsed_data := dictSet e.parsed_data "__rule_label__" "" }
    else
      { e with parsed_data := dictSet e.parsed_data "__rule_label__" "" }
  | none =>
    { e with parsed_data := dictSet e.parsed_data "__rule_label__" "" }

/-- Line loop of `filter_chunk_data` (parallel_filter.py): parse each
stripped line of the chunk's byte range; decoded entries are enriched,
tested, and on a match contribute `chunk_start_index + entry_index`,
where `entry_index` counts only decoded entries. -/
def filterChunkLoop (env : PyEnv) (mapping : PyDict) (labels : Option PyDict)
    (pred : LogEntry → Bool) (chunk_start : Nat) :
    List String → Nat → List Nat
  | [], _ => []
  | l :: ls, entry_index =>
    match parseLogLine env mapping (pyStrip l) with
    | none => filterChunkLoop env mapping labels pred chunk_start ls entry_index
    | some e =>
      let e := addRuleLabel labels e
      if pred e then
        (chunk_start + entry_index)
          :: filterChunkLoop env mapping labels pred chunk_start ls (entry_index + 1)
      else
        filterChunkLoop env mapping labels pred chunk_start ls (entry_index + 1)

/-- Translation of worker function `filter_chunk_data`: the chunk's
byte range covers physical lines `[chunk_id*1000, chunk_id*1000+1000)`
(the chunk size 1000 is hard-coded both in
`ParallelLogFilter.chunk_size` and in the worker's
`chunk_start_index = chunk_id * 1000`). -/
def filterChunkData (env : PyEnv) (mapping : PyDict) (labels : Option PyDict)
    (pred : LogEntry → Bool) (lines : List String) (chunk_id : Nat) : List Nat :=
  filterChunkLoop env mapping labels pred (chunk_id * 1000)
    ((lines.drop (chunk_id * 1000)).take 1000) 0

/-- Translation of `ParallelLogFilter.apply_filter_parallel`: one job
per 1000-line chunk, per-job match lists concatenated (job completion
order only permutes them ahead of the final canonicalizing sort) and
sorted ascending.  The worker count configures the pool but not the
job partition, so it does not appear in the value computed. -/
def applyFilterParallel (env : PyEnv) (mapping : PyDict) (labels : Option PyDict)
    (pred : LogEntry → Bool) (lines : List String) : List Nat :=
  let total_entries := lines.length
  let total_chunks := (total_entries + 1000 - 1) / 1000
  pySort (((List.range total_chunks).map
    (fun cid => filterChunkData env mapping labels pred lines cid)).flatten)

/-- Per-line body of `process_lines_batch`
(`VirtualLogManager._apply_threaded_filter`): strip the line, skip
empties, parse with a fresh parser that has no interface mapping, and
on a predicate match emit the physical line index `line_idx`. -/
def batchCheck (env : PyEnv) (pred : LogEntry → Bool) (all_lines : List String)
    (line_idx : Nat) : List Nat :=
  if pyStrip (all_lines.getD line_idx "") != "" then
    match parseLogLine env [] (pyStrip (all_lines.getD line_idx "")) with
    | some e => if pred e then [line_idx] else []
    | none => []
  else []

/-- Index loop of `process_lines_batch` over
`range(start_idx, min(end_idx, len(all_lines)))`, counted by the second
argument. -/
def batchLoop (env : PyEnv) (pred : LogEntry → Bool) (all_lines : List String) :
    Nat → Nat → List Nat
  | _, 0 => []
  | idx, k + 1 => batchCheck env pred all_lines idx ++ batchLoop env pred all_lines (idx + 1) k

/-- Translation of `process_lines_batch`. -/
def processLinesBatch (env : PyEnv) (pred : LogEntry → Bool) (all_lines : List String)
    (start_idx end_idx : Nat) : List Nat :=
  batchLoop env pred all_lines start_idx (min end_idx all_lines.length - start_idx)

/-- Translation of `VirtualLogManager._apply_threaded_filter`:
`optimal_threads` is the ambient thread count chosen from
`os.cpu_count()`; batch size `max(50, n // optimal_threads)`, at most
`min(optimal_threads, ceil(n / batch))` batches, one batch per thread;
batch results are concatenated (thread completion order only permutes
them ahead of the final sort) and sorted ascending. -/
def applyThreadedFilter (optimal_threads : Nat) (env : PyEnv)
    (pred : LogEntry → Bool) (lines : List String) : List Nat :=
  let n := lines.length
  let lines_per_thread := max 50 (n / optimal_threads)
  let max_threads := min optimal_threads ((n + lines_per_thread - 1) / lines_per_thread)
  pySort (((List.range max_threads).map (fun i =>
    let start_idx := i * lines_per_thread
    let end_idx := min (start_idx + lines_per_thread) n
    if start_idx < n then processLinesBatch env pred lines start_idx end_idx
    else [])).flatten)

/-! ## Reference definitions written from the specification's words -/

/-- Records of a file: the entries produced by the grammar decoder on
each stripped physical line, in file order. -/
def recordsOf (env : PyEnv) (mapping : PyDict) (lines : List String) : List LogEntry :=
  lines.filterMap (fun l => parseLogLine env mapping (pyStrip l))

/-- Written from the specification: the sorted list of global record
indices (zero-based, counting only records accepted by the grammar
decoder) whose record satisfies the predicate.  Used as the comparison
point for the refinement claims about the filter engines. -/
def recordIndexMatches (env : PyEnv) (mapping : PyDict) (pred : LogEntry → Bool)
    (lines : List String) : List Nat :=
  (((recordsOf env mapping lines).enum).filter (fun p => pred p.2)).map (fun p => p.1)

/-- Proof-side spine shared by both engines: indices `j, j+1, ...` of
the records in `rs` that satisfy `pred`, starting at `j`. -/
def collectMatches (pred : LogEntry → Bool) : List LogEntry → Nat → List Nat
  | [], _ => []
  | r :: rs, j =>
    if pred r then j :: collectMatches pred rs (j + 1)
    else collectMatches pred rs (j + 1)

/-! ## Concrete fixtures used by counterexamples and witnesses -/

/-- Concrete oracle environment: a fixed ingest instant, a regex
engine whose compilation always fails, a float parser that always
fails, and a constant digest.  Conditions exercised through it use
only the string operators. -/
def envTest : PyEnv :=
  { now := ⟨2024, 6, 1, 0, 0, 0⟩,
    regexCompile := fun _ _ => none,
    pyFloat := fun _ => none,
    md5hex := fun _ => "" }

/-- Record line with an ISO timestamp (action `pass`, interface `em0`). -/
def recLineA : String := "2024-01-15T10:30:45 fw filterlog: 5,,,0,em0,match,pass,in,4"

/-- Second record line with an ISO timestamp (action `block`). -/
def recLineB : String := "2024-01-15T10:30:46 fw filterlog: 6,,,0,em1,match,block,in,4"

/-- Record line with a classic syslog month-day timestamp. -/
def syslogRecLine : String := "Jan 15 10:30:45 fw filterlog: 5,,,0,em0,match,pass,in,4"

/-- Non-record line (no `filterlog` token). -/
def junkLine : String := "junk"

/-- File with a non-record first line and one record. -/
def demoLines : List String := [junkLine, recLineA]

/-- File whose every physical line is a record. -/
def denseLines : List String := [recLineA, recLineB]

/-- File with a non-record line between two records. -/
def gapLines : List String := [recLineA, junkLine, recLineB]

/-- File of 101 physical lines whose only record is the last line. -/
def longLines : List String := List.replicate 100 junkLine ++ [recLineA]

/-- Predicate accepting every record. -/
def predTrue : LogEntry → Bool := fun _ => true

/-- Condition `action == 'pass'`. -/
def condPass : FilterCondition := ⟨"action", "==", "pass", false⟩

/-- Condition `protoname == 'tcp'`. -/
def condTcp : FilterCondition := ⟨"protoname", "==", "tcp", false⟩

/-- Condition `action == 'block'`. -/
def condBlock : FilterCondition := ⟨"action", "==", "block", false⟩

/-- Expression `action == 'pass' AND protoname == 'tcp' OR action ==
'block'`, as built by three `add_condition` calls. -/
def exprMixed : FilterExpression :=
  ⟨[condPass, condTcp, condBlock], ["AND", "OR"], [false, false, false]⟩

/-- The same expression wrapped the way `OptimizedFilterFunction`
copies it, with the time filter disabled. -/
def optMixed : OptimizedFilterFunction :=
  ⟨[condPass, condTcp, condBlock], ["AND", "OR"], [false, false, false],
    false, none, none⟩

/-- Entry with `action='block'`, `protoname='udp'` (the shape of
`entry3` in the repository's own unit test
`test_evaluate_complex_expression`). -/
def entryBlockUdp : LogEntry :=
  ⟨"", [("action", "block"), ("protoname", "udp")], ⟨2024, 1, 1, 0, 0, 0⟩,
    "opnsense", ""⟩

/-! ## Sorting lemmas -/

theorem insertSorted_of_forall_le (x : Nat) (ys : List Nat)
    (h : ∀ y ∈ ys, x ≤ y) : insertSorted x ys = x :: ys := by
  cases ys with
  | nil => rfl
  | cons y ys => simp [insertSorted, h y (by simp)]

theorem pySort_eq_self (l : List Nat) (h : l.Pairwise (· ≤ ·)) :
    pySort l = l := by
  induction l with
  | nil => rfl
  | cons x xs ih =>
    have hx : ∀ y ∈ xs, x ≤ y := (List.pairwise_cons.mp h).1
    have hxs := (List.pairwise_cons.mp h).2
    show insertSorted x (pySort xs) = x :: xs
    rw [ih hxs, insertSorted_of_forall_le x xs hx]

theorem pySort_eq_self_of_lt (l : List Nat) (h : l.Pairwise (· < ·)) :
    pySort l = l :=
  pySort_eq_self l (h.imp Nat.le_of_lt)

/-! ## Lemmas about collectMatches -/

theorem collectMatches_mem_bounds (pred : LogEntry → Bool) :
    ∀ (rs : List LogEntry) (j x : Nat), x ∈ collectMatches pred rs j →
      j ≤ x ∧ x < j + rs.length := by
  intro rs
  induction rs with
  | nil => intro j x hx; simp [collectMatches] at hx
  | cons r rs ih =>
    intro j x hx
    simp only [collectMatches] at hx
    by_cases hp : pred r
    · simp only [hp, if_pos] at hx
      rcases List.mem_cons.mp hx with h | h
      · subst h; simp only [List.length_cons]; omega
      · have := ih (j + 1) x h
        simp only [List.length_cons]
        omega
    · simp only [hp, if_neg, Bool.not_eq_true] at hx
      have := ih (j + 1) x (by simpa using hx)
      simp only [List.length_cons]
      omega

theorem collectMatches_pairwise (pred : LogEntry → Bool) :
    ∀ (rs : List LogEntry) (j : Nat),
      (collectMatches pred rs j).Pairwise (· < ·) := by
  intro rs
  induction rs with
  | nil => intro j; simp [collectMatches]
  | cons r rs ih =>
    intro j
    simp only [collectMatches]
    by_cases hp : pred r
    · simp only [hp, if_pos]
      refine List.pairwise_cons.mpr ⟨?_, ih (j + 1)⟩
      intro x hx
      have := collectMatches_mem_bounds pred rs (j + 1) x hx
      omega
    · simpa [hp] using ih (j + 1)

theorem collectMatches_append (pred : LogEntry → Bool) :
    ∀ (as bs : List LogEntry) (j : Nat),
      collectMatches pred (as ++ bs) j
        = collectMatches pred as j ++ collectMatches pred bs (j + as.length) := by
  intro as
  induction as with
  | nil => intro bs j; simp [collectMatches]
  | cons a as ih =>
    intro bs j
    simp only [List.cons_append, collectMatches]
    have harith : j + 1 + as.length = j + (as.length + 1) := by omega
    by_cases hp : pred a
    · simp [hp, List.append_eq, ih bs (j + 1), harith]
    · simp [hp, List.append_eq, ih bs (j + 1), harith]

theorem collectMatches_take_drop (pred : LogEntry → Bool)
    (rs : List LogEntry) (m j : Nat) (h : m ≤ rs.length) :
    collectMatches pred rs j
      = collectMatches pred (rs.take m) j
        ++ collectMatches pred (rs.drop m) (j + m) := by
  conv_lhs => rw [← List.take_append_drop m rs]
  rw [collectMatches_append, List.length_take]
  congr 2
  omega

theorem collectMatches_enumFrom (pred : LogEntry → Bool) :
    ∀ (rs : List LogEntry) (j : Nat),
      collectMatches pred rs j
        = ((List.enumFrom j rs).filter (fun p => pred p.2)).map (fun p => p.1) := by
  intro rs
  induction rs with
  | nil => intro j; simp [collectMatches]
  | cons r rs ih =>
    intro j
    simp only [collectMatches, List.enumFrom, List.filter]
    by_cases hp : pred r
    · simp [hp, ih (j + 1)]
    · simp [hp, ih (j + 1)]

theorem collectMatches_congr (p q : LogEntry → Bool) (h : ∀ e, p e = q e) :
    ∀ (rs : List LogEntry) (j : Nat),
      collectMatches p rs j = collectMatches q rs j := by
  intro rs
  induction rs with
  | nil => intro j; rfl
  | cons r rs ih =>
    intro j
    simp only [collectMatches, h r, ih (j + 1)]

/-! ## Density lemmas: files whose every physical line is a record -/

/-- Shorthand: every physical line of the file decodes to a record. -/
def DenseFile (env : PyEnv) (mapping : PyDict) (lines : List String) : Prop :=
  ∀ l ∈ lines, (parseLogLine env mapping (pyStrip l)).isSome = true

instance (env : PyEnv) (mapping : PyDict) (lines : List String) :
    Decidable (DenseFile env mapping lines) := by
  unfold DenseFile; infer_instance

theorem length_filterMap_le' {α β : Type} (f : α → Option β) (l : List α) :
    (l.filterMap f).length ≤ l.length := by
  induction l with
  | nil => simp
  | cons a l ih =>
    cases h : f a with
    | none => simp [List.filterMap_cons, h]; omega
    | some b => simp [List.filterMap_cons, h]; omega

theorem filterMap_eq_map_of_isSome {α β : Type} [Inhabited β]
    (f : α → Option β) (l : List α) (h : ∀ a ∈ l, (f a).isSome = true) :
    l.filterMap f = l.map (fun a => (f a).getD default) := by
  induction l with
  | nil => rfl
  | cons a l ih =>
    have ha := h a (by simp)
    cases hfa : f a with
    | none => rw [hfa] at ha; simp at ha
    | some b =>
      simp only [List.filterMap_cons, hfa, List.map_cons, Option.getD_some]
      exact congrArg (b :: ·) (ih (fun x hx => h x (by simp [hx])))

/-- Record extraction commutes with `drop`/`take` slicing on a dense
file. -/
theorem recordsOf_slice (env : PyEnv) (mapping : PyDict) (lines : List String)
    (hd : DenseFile env mapping lines) (a b : Nat) :
    recordsOf env mapping ((lines.drop a).take b)
      = ((recordsOf env mapping lines).drop a).take b := by
  unfold recordsOf
  rw [filterMap_eq_map_of_isSome _ _ hd]
  rw [filterMap_eq_map_of_isSome _ _ (fun l hl => hd l ?_)]
  · rw [List.map_take, List.map_drop]
  · exact List.mem_of_mem_drop (List.mem_of_mem_take hl)

theorem recordsOf_length_of_dense (env : PyEnv) (mapping : PyDict)
    (lines : List String) (hd : DenseFile env mapping lines) :
    (recordsOf env mapping lines).length = lines.length := by
  unfold recordsOf
  rw [filterMap_eq_map_of_isSome _ _ hd, List.length_map]

theorem recordsOf_length_le (env : PyEnv) (mapping : PyDict) (lines : List String) :
    (recordsOf env mapping lines).length ≤ lines.length :=
  length_filterMap_le' _ _

/-! ## Characterization of the multiprocessing engine -/

theorem filterChunkLoop_eq_collectMatches (env : PyEnv) (mapping : PyDict)
    (labels : Option PyDict) (pred : LogEntry → Bool) (base : Nat) :
    ∀ (ls : List String) (k : Nat),
      filterChunkLoop env mapping labels pred base ls k
        = collectMatches (fun e => pred (addRuleLabel labels e))
            (recordsOf env mapping ls) (base + k) := by
  intro ls
  induction ls with
  | nil => intro k; simp [filterChunkLoop, recordsOf, collectMatches]
  | cons l ls ih =>
    intro k
    simp only [filterChunkLoop, recordsOf, List.filterMap_cons]
    cases hp : parseLogLine env mapping (pyStrip l) with
    | none => simpa [recordsOf] using ih k
    | some e =>
      simp only [collectMatches]
      by_cases hm : pred (addRuleLabel labels e)
      · simp only [hm, if_pos]
        have := ih (k + 1)
        simp only [recordsOf] at this
        rw [this]
        have : base + k + 1 = base + (k + 1) := by omega
        rw [this]
      · simp only [hm, Bool.false_eq_true, if_neg]
        have := ih (k + 1)
        simp only [recordsOf] at this
        rw [this]
        have : base + k + 1 = base + (k + 1) := by omega
        rw [this]

theorem filterChunkData_eq (env : PyEnv) (mapping : PyDict)
    (labels : Option PyDict) (pred : LogEntry → Bool) (lines : List String)
    (cid : Nat) :
    filterChunkData env mapping labels pred lines cid
      = collectMatches (fun e => pred (addRuleLabel labels e))
          (recordsOf env mapping ((lines.drop (cid * 1000)).take 1000))
          (cid * 1000) := by
  unfold filterChunkData
  rw [filterChunkLoop_eq_collectMatches]
  norm_num

/-- Gluing lemma: the per-chunk collections over `C` chunks of size `S`
concatenate to the collection over the whole record list, provided the
chunks cover it. -/
theorem collectMatches_chunks (pred : LogEntry → Bool) (S : Nat) :
    ∀ (C : Nat) (rs : List LogEntry) (j : Nat), rs.length ≤ C * S →
      ((List.range C).map (fun k =>
        collectMatches pred ((rs.drop (k * S)).take S) (j + k * S))).flatten
      = collectMatches pred rs j := by
  intro C
  induction C with
  | zero =>
    intro rs j hlen
    simp only [Nat.zero_mul, Nat.le_zero, List.length_eq_zero] at hlen
    subst hlen
    simp [collectMatches]
  | succ C ih =>
    intro rs j hlen
    rw [List.range_succ_eq_map]
    simp only [List.map_cons, List.flatten_cons, Nat.zero_mul, List.drop_zero,
      Nat.add_zero, List.map_map]
    have hmap : (List.range C).map ((fun k =>
          collectMatches pred ((rs.drop (k * S)).take S) (j + k * S)) ∘ Nat.succ)
        = (List.range C).map (fun k =>
          collectMatches pred (((rs.drop S).drop (k * S)).take S) ((j + S) + k * S)) := by
      refine List.map_congr_left ?_
      intro k _
      have hmul : (k + 1) * S = k * S + S := by ring
      simp only [Function.comp, Nat.succ_eq_add_one, hmul]
      rw [List.drop_drop]
      have h3 : j + (k * S + S) = j + S + k * S := by ring
      rw [h3, Nat.add_comm S (k * S)]
    rw [hmap, ih (rs.drop S) (j + S) ?_]
    · by_cases hS : S ≤ rs.length
      · rw [collectMatches_take_drop pred rs S j hS]
      · rw [List.drop_eq_nil_of_le (by omega), List.take_of_length_le (by omega)]
        simp [collectMatches]
    · simp only [List.length_drop]
      have hmul : (C + 1) * S = C * S + S := by ring
      omega

/-! ## Bounds for both engines -/

theorem filterChunkData_mem_bounds (env : PyEnv) (mapping : PyDict)
    (labels : Option PyDict) (pred : LogEntry → Bool) (lines : List String)
    (cid x : Nat) (hx : x ∈ filterChunkData env mapping labels pred lines cid) :
    cid * 1000 ≤ x ∧ x < (cid + 1) * 1000 ∧ x < lines.length := by
  rw [filterChunkData_eq] at hx
  have hb := collectMatches_mem_bounds _ _ _ _ hx
  have hlen : (recordsOf env mapping ((lines.drop (cid * 1000)).take 1000)).length
      ≤ ((lines.drop (cid * 1000)).take 1000).length := recordsOf_length_le _ _ _
  rw [List.length_take, List.length_drop] at hlen
  omega

theorem batchCheck_mem (env : PyEnv) (pred : LogEntry → Bool)
    (all_lines : List String) (idx x : Nat)
    (hx : x ∈ batchCheck env pred all_lines idx) : x = idx := by
  unfold batchCheck at hx
  split at hx
  · split at hx
    · split at hx
      · simpa using hx
      · simp at hx
    · simp at hx
  · simp at hx

theorem batchLoop_mem_bounds (env : PyEnv) (pred : LogEntry → Bool)
    (all_lines : List String) :
    ∀ (k idx x : Nat), x ∈ batchLoop env pred all_lines idx k →
      idx ≤ x ∧ x < idx + k := by
  intro k
  induction k with
  | zero => intro idx x hx; simp [batchLoop] at hx
  | succ k ih =>
    intro idx x hx
    simp only [batchLoop, List.mem_append] at hx
    rcases hx with h | h
    · have := batchCheck_mem env pred all_lines idx x h
      omega
    · have := ih (idx + 1) x h
      omega

theorem batchLoop_pairwise (env : PyEnv) (pred : LogEntry → Bool)
    (all_lines : List String) :
    ∀ (k idx : Nat), (batchLoop env pred all_lines idx k).Pairwise (· < ·) := by
  intro k
  induction k with
  | zero => intro idx; simp [batchLoop]
  | succ k ih =>
    intro idx
    simp only [batchLoop]
    refine List.pairwise_append.mpr ⟨?_, ih (idx + 1), ?_⟩
    · unfold batchCheck
      split
      · split
        · split <;> simp
        · simp
      · simp
    · intro x hx y hy
      have hx' := batchCheck_mem env pred all_lines idx x hx
      have hy' := batchLoop_mem_bounds env pred all_lines k (idx + 1) y hy
      omega

theorem applyFilterParallel_pairwise (env : PyEnv) (mapping : PyDict)
    (labels : Option PyDict) (pred : LogEntry → Bool) (lines : List String) :
    (applyFilterParallel env mapping labels pred lines).Pairwise (· < ·)
    ∧ ∀ x ∈ applyFilterParallel env mapping labels pred lines, x < lines.length := by
  unfold applyFilterParallel
  have hpair : (((List.range ((lines.length + 1000 - 1) / 1000)).map
      (fun cid => filterChunkData env mapping labels pred lines cid)).flatten).Pairwise
      (· < ·) := by
    rw [List.pairwise_flatten]
    refine ⟨?_, ?_⟩
    · intro s hs
      rcases List.mem_map.mp hs with ⟨cid, _, rfl⟩
      rw [filterChunkData_eq]
      exact collectMatches_pairwise _ _ _
    · rw [List.pairwise_map]
      refine (List.pairwise_lt_range _).imp ?_
      intro i jj hij x hx y hy
      have hx' := filterChunkData_mem_bounds env mapping labels pred lines i x hx
      have hy' := filterChunkData_mem_bounds env mapping labels pred lines jj y hy
      have : (i + 1) * 1000 ≤ jj * 1000 := Nat.mul_le_mul_right 1000 hij
      omega
  have hbound : ∀ x ∈ ((List.range ((lines.length + 1000 - 1) / 1000)).map
      (fun cid => filterChunkData env mapping labels pred lines cid)).flatten,
      x < lines.length := by
    intro x hx
    rcases List.mem_flatten.mp hx with ⟨s, hs, hxs⟩
    rcases List.mem_map.mp hs with ⟨cid, _, rfl⟩
    exact (filterChunkData_mem_bounds env mapping labels pred lines cid x hxs).2.2
  rw [pySort_eq_self_of_lt _ hpair]
  exact ⟨hpair, hbound⟩

theorem threadBatch_mem_bounds (env : PyEnv) (pred : LogEntry → Bool)
    (lines : List String) (lpt : Nat) (hlpt : 0 < lpt) (i x : Nat)
    (hx : x ∈ (if i * lpt < lines.length then
        processLinesBatch env pred lines (i * lpt)
          (min (i * lpt + lpt) lines.length)
      else [])) :
    i * lpt ≤ x ∧ x < (i + 1) * lpt ∧ x < lines.length := by
  split at hx
  · unfold processLinesBatch at hx
    have hb := batchLoop_mem_bounds env pred lines _ _ x hx
    have h1 : (i + 1) * lpt = i * lpt + lpt := by ring
    omega
  · simp at hx

theorem applyThreadedFilter_pairwise (T : Nat) (env : PyEnv)
    (pred : LogEntry → Bool) (lines : List String) :
    (applyThreadedFilter T env pred lines).Pairwise (· < ·)
    ∧ ∀ x ∈ applyThreadedFilter T env pred lines, x < lines.length := by
  unfold applyThreadedFilter
  have hlpt : 0 < max 50 (lines.length / T) := by omega
  have hpair : (((List.range (min T ((lines.length + max 50 (lines.length / T) - 1)
        / max 50 (lines.length / T)))).map (fun i =>
        if i * max 50 (lines.length / T) < lines.length then
          processLinesBatch env pred lines (i * max 50 (lines.length / T))
            (min (i * max 50 (lines.length / T) + max 50 (lines.length / T))
              lines.length)
        else [])).flatten).Pairwise (· < ·) := by
    rw [List.pairwise_flatten]
    refine ⟨?_, ?_⟩
    · intro s hs
      rcases List.mem_map.mp hs with ⟨i, _, rfl⟩
      split
      · exact batchLoop_pairwise env pred lines _ _
      · simp
    · rw [List.pairwise_map]
      refine (List.pairwise_lt_range _).imp ?_
      intro i jj hij x hx y hy
      have hx' := threadBatch_mem_bounds env pred lines _ hlpt i x hx
      have hy' := threadBatch_mem_bounds env pred lines _ hlpt jj y hy
      have : (i + 1) * max 50 (lines.length / T) ≤ jj * max 50 (lines.length / T) :=
        Nat.mul_le_mul_right _ hij
      omega
  have hbound : ∀ x ∈ (((List.range (min T ((lines.length + max 50 (lines.length / T) - 1)
        / max 50 (lines.length / T)))).map (fun i =>
        if i * max 50 (lines.length / T) < lines.length then
          processLinesBatch env pred lines (i * max 50 (lines.length / T))
            (min (i * max 50 (lines.length / T) + max 50 (lines.length / T))
              lines.length)
        else [])).flatten), x < lines.length := by
    intro x hx
    rcases List.mem_flatten.mp hx with ⟨s, hs, hxs⟩
    rcases List.mem_map.mp hs with ⟨i, _, rfl⟩
    exact (threadBatch_mem_bounds env pred lines _ hlpt i x hxs).2.2
  rw [pySort_eq_self_of_lt _ hpair]
  exact ⟨hpair, hbound⟩

/-! ## Dense-file characterizations of both engines -/

theorem parseLogLine_empty (env : PyEnv) (mapping : PyDict) :
    parseLogLine env mapping "" = none := rfl

theorem batchLoop_dense (env : PyEnv) (pred : LogEntry → Bool)
    (lines : List String) (hd : DenseFile env [] lines) :
    ∀ (k s : Nat), s + k ≤ lines.length →
      batchLoop env pred lines s k
        = collectMatches pred (recordsOf env [] ((lines.drop s).take k)) s := by
  intro k
  induction k with
  | zero =>
    intro s _
    simp [batchLoop, recordsOf, collectMatches]
  | succ k ih =>
    intro s hs
    have hslt : s < lines.length := by omega
    have hgetD : lines.getD s "" = lines[s] := List.getD_eq_getElem lines "" hslt
    have hmem : lines[s] ∈ lines := List.getElem_mem hslt
    have hsome := hd lines[s] hmem
    have hne : pyStrip lines[s] ≠ "" := by
      intro hempty
      rw [hempty, parseLogLine_empty] at hsome
      simp at hsome
    obtain ⟨e, he⟩ := Option.isSome_iff_exists.mp hsome
    have hdrop : lines.drop s = lines[s] :: lines.drop (s + 1) :=
      List.drop_eq_getElem_cons hslt
    have hslice : (lines.drop s).take (k + 1)
        = lines[s] :: (lines.drop (s + 1)).take k := by
      rw [hdrop, List.take_succ_cons]
    have hcheck : batchCheck env pred lines s = if pred e then [s] else [] := by
      unfold batchCheck
      rw [hgetD, he]
      have : (pyStrip lines[s] != "") = true := by
        simpa [bne_iff_ne] using hne
      rw [if_pos this]
    simp only [batchLoop, hcheck, hslice, recordsOf, List.filterMap_cons, he,
      collectMatches]
    have hrest := ih (s + 1) (by omega)
    simp only [recordsOf] at hrest
    rw [hrest]
    by_cases hp : pred e
    · simp [hp]
    · simp [hp]

theorem applyThreadedFilter_one_dense (env : PyEnv) (pred : LogEntry → Bool)
    (lines : List String) (hd : DenseFile env [] lines) :
    applyThreadedFilter 1 env pred lines
      = collectMatches pred (recordsOf env [] lines) 0 := by
  simp only [applyThreadedFilter]
  rcases Nat.eq_zero_or_pos lines.length with hn | hn
  · have hnil : lines = [] := List.length_eq_zero.mp hn
    subst hnil
    simp [pySort, recordsOf, collectMatches]
  · have hdiv : lines.length / 1 = lines.length := Nat.div_one _
    rw [hdiv]
    have hM1 : lines.length ≤ max 50 lines.length := Nat.le_max_right _ _
    have hM2 : 50 ≤ max 50 lines.length := Nat.le_max_left _ _
    have hone : (lines.length + max 50 lines.length - 1) / max 50 lines.length = 1 := by
      refine Nat.div_eq_of_lt_le (by omega) (by omega)
    rw [hone]
    have hr1 : List.range (min 1 1) = [0] := by decide
    rw [hr1]
    simp only [List.map_cons, List.map_nil, List.flatten_cons, List.flatten_nil,
      List.append_nil, Nat.zero_mul, Nat.zero_add]
    rw [if_pos hn]
    have hmin : min (max 50 lines.length) lines.length = lines.length := by omega
    rw [hmin]
    unfold processLinesBatch
    have hminn : min lines.length lines.length - 0 = lines.length := by omega
    rw [hminn]
    rw [batchLoop_dense env pred lines hd lines.length 0 (by omega)]
    rw [List.drop_zero, List.take_length]
    exact pySort_eq_self_of_lt _ (collectMatches_pairwise _ _ _)

theorem applyFilterParallel_dense (env : PyEnv) (mapping : PyDict)
    (labels : Option PyDict) (pred : LogEntry → Bool) (lines : List String)
    (hd : DenseFile env mapping lines) :
    applyFilterParallel env mapping labels pred lines
      = collectMatches (fun e => pred (addRuleLabel labels e))
          (recordsOf env mapping lines) 0 := by
  simp only [applyFilterParallel]
  have hmap : (List.range ((lines.length + 1000 - 1) / 1000)).map
      (fun cid => filterChunkData env mapping labels pred lines cid)
      = (List.range ((lines.length + 1000 - 1) / 1000)).map
        (fun k => collectMatches (fun e => pred (addRuleLabel labels e))
          (((recordsOf env mapping lines).drop (k * 1000)).take 1000)
          (0 + k * 1000)) := by
    refine List.map_congr_left ?_
    intro k _
    rw [filterChunkData_eq, recordsOf_slice env mapping lines hd, Nat.zero_add]
  rw [hmap]
  rw [collectMatches_chunks _ 1000 _ _ 0 ?_]
  · exact pySort_eq_self_of_lt _ (collectMatches_pairwise _ _ _)
  · rw [recordsOf_length_of_dense env mapping lines hd]
    omega

theorem recordIndexMatches_eq_collect (env : PyEnv) (mapping : PyDict)
    (pred : LogEntry → Bool) (lines : List String) :
    recordIndexMatches env mapping pred lines
      = collectMatches pred (recordsOf env mapping lines) 0 := by
  rw [collectMatches_enumFrom]
  rfl

/-! ## Dense-file characterization of the UNFILTERED read path -/

theorem getChunk_dense (env : PyEnv) (mapping : PyDict) (cs : Nat)
    (lines : List String) (hd : DenseFile env mapping lines) (cid : Nat) :
    getChunk env mapping (loadFile cs lines) cid
      = ((recordsOf env mapping lines).drop (cid * cs)).take cs := by
  have hlen := recordsOf_length_of_dense env mapping lines hd
  simp only [getChunk, loadFile]
  split
  · rw [List.drop_eq_nil_of_le (by omega), List.take_nil]
  · exact recordsOf_slice env mapping lines hd _ _

theorem rawEntriesLoop_dense (env : PyEnv) (mapping : PyDict) (cs : Nat)
    (hcs : 0 < cs) (lines : List String) (hd : DenseFile env mapping lines) :
    ∀ (fuel remaining current : Nat) (acc : List LogEntry), remaining < fuel →
      rawEntriesLoop env mapping (loadFile cs lines) fuel current remaining acc
        = some (acc ++ ((recordsOf env mapping lines).drop current).take remaining) := by
  have hlen := recordsOf_length_of_dense env mapping lines hd
  intro fuel
  induction fuel with
  | zero => intro remaining current acc h; omega
  | succ fuel ih =>
    intro remaining current acc hfuel
    rw [rawEntriesLoop]
    by_cases hr0 : remaining = 0
    · subst hr0
      simp
    · by_cases hcur : lines.length ≤ current
      · have hguard : (remaining == 0
            || decide ((loadFile cs lines).total_entries ≤ current)) = true := by
          simp [loadFile, hcur]
        rw [if_pos hguard]
        rw [List.drop_eq_nil_of_le (by omega), List.take_nil, List.append_nil]
      · have hguard : (remaining == 0
            || decide ((loadFile cs lines).total_entries ≤ current)) = false := by
          simp [loadFile, hcur, hr0]
        rw [if_neg (by simp [hguard])]
        try simp only [show (loadFile cs lines).chunk_size = cs from rfl]
        have hchunk : getChunk env mapping (loadFile cs lines) (current / cs)
            = ((recordsOf env mapping lines).drop (current / cs * cs)).take cs :=
          getChunk_dense env mapping cs lines hd (current / cs)
        have hstart_le : current / cs * cs ≤ current := Nat.div_mul_le_self current cs
        have hstart_off : current / cs * cs + current % cs = current := by
          rw [Nat.mul_comm]
          exact Nat.div_add_mod current cs
        have hchunklen : (getChunk env mapping (loadFile cs lines) (current / cs)).length
            = min cs ((recordsOf env mapping lines).length - current / cs * cs) := by
          rw [hchunk, List.length_take, List.length_drop]
        have hoff_cs : current % cs < cs := Nat.mod_lt current hcs
        have hoff_lt : current % cs
            < (getChunk env mapping (loadFile cs lines) (current / cs)).length := by
          rw [hchunklen]
          omega
        have hne : ¬ getChunk env mapping (loadFile cs lines) (current / cs) = [] := by
          intro hnil
          rw [hnil] at hoff_lt
          simp at hoff_lt
        rw [if_neg (by simp [List.isEmpty_iff, hne])]
        try simp only []
        set L := (getChunk env mapping (loadFile cs lines) (current / cs)).length with hL
        set tN := min remaining (L - current % cs) with htN
        have htpos : 1 ≤ tN := by omega
        have htcast : min (remaining : Int) ((L : Int) - ((current % cs : Nat) : Int))
            = ((tN : Nat) : Int) := by
          rw [htN]
          omega
        rw [htcast]
        have htoNat1 : ((current : Int) + ((tN : Nat) : Int)).toNat = current + tN := by
          omega
        have htoNat2 : ((remaining : Int) - ((tN : Nat) : Int)).toNat = remaining - tN := by
          omega
        have htoNat3 : (((tN : Nat) : Int)).toNat = tN := by omega
        rw [htoNat1, htoNat2, htoNat3]
        have hslice : ((getChunk env mapping (loadFile cs lines) (current / cs)).drop
              (current % cs)).take tN
            = ((recordsOf env mapping lines).drop current).take tN := by
          rw [hchunk, List.drop_take, List.drop_drop, hstart_off, List.take_take]
          congr 1
          omega
        rw [hslice]
        rw [ih (remaining - tN) (current + tN) _ (by omega)]
        congr 1
        rw [List.append_assoc]
        congr 1
        have hsplit : ((recordsOf env mapping lines).drop current).take remaining
            = ((recordsOf env mapping lines).drop current).take tN
              ++ (((recordsOf env mapping lines).drop current).drop tN).take
                  (remaining - tN) := by
          rw [← List.take_add]
          congr 1
          omega
        rw [hsplit, List.drop_drop]

/-! ## Lemmas about the decoder -/

theorem pyWordsAux_no_ws :
    ∀ (cs cur : List Char), (∀ c ∈ cur, c.isWhitespace = false) →
      ∀ w ∈ pyWordsAux cs cur, ∀ c ∈ w, c.isWhitespace = false := by
  intro cs
  induction cs with
  | nil =>
    intro cur hcur w hw c hc
    simp only [pyWordsAux] at hw
    split at hw
    · simp at hw
    · simp only [List.mem_singleton] at hw
      subst hw
      exact hcur c (List.mem_reverse.mp hc)
  | cons a cs ih =>
    intro cur hcur w hw c hc
    simp only [pyWordsAux] at hw
    by_cases hws : a.isWhitespace
    · rw [if_pos hws] at hw
      split at hw
      · exact ih [] (by simp) w hw c hc
      · rcases List.mem_cons.mp hw with h | h
        · subst h
          exact hcur c (List.mem_reverse.mp hc)
        · exact ih [] (by simp) w h c hc
    · rw [if_neg hws] at hw
      refine ih (a :: cur) ?_ w hw c hc
      intro d hd
      rcases List.mem_cons.mp hd with h | h
      · subst h
        simpa using hws
      · exact hcur d h

/-- Every token produced by `str.split()` is whitespace-free. -/
theorem pySplitWs_no_ws (line tok : String) (htok : tok ∈ pySplitWs line)
    (c : Char) (hc : c ∈ tok.toList) : c.isWhitespace = false := by
  rcases List.mem_map.mp htok with ⟨w, hw, rfl⟩
  exact pyWordsAux_no_ws line.toList [] (by simp) w hw c hc

/-- The `strptime("%b %d %H:%M:%S")` model rejects every whitespace-free
input: the format's mandatory whitespace after the month cannot match. -/
theorem strptimeMonthDay_eq_none_of_no_ws (s : String)
    (h : ∀ c ∈ s.toList, c.isWhitespace = false) :
    strptimeMonthDay s = none := by
  unfold strptimeMonthDay
  cases hls : s.toList with
  | nil => rfl
  | cons a t1 =>
    cases t1 with
    | nil => rfl
    | cons b t2 =>
      cases t2 with
      | nil => rfl
      | cons c rest =>
        cases hm : monthAbbrevNum a b c with
        | none => simp [hm]
        | some m =>
          cases rest with
          | nil => simp [hm, skipWsOnePlus]
          | cons d ds =>
            have hd : d.isWhitespace = false := h d (by rw [hls]; simp)
            simp [hm, skipWsOnePlus, hd]

theorem dictGet_finishRule_digest (env : PyEnv) (mapping : PyDict)
    (line timestamp_str : String) (rule : PyDict) :
    dictGet (finishRule env mapping line timestamp_str rule) "__digest__"
      = some (env.md5hex line) := by
  simp only [finishRule]
  exact dictGet_dictSet_self _ _ _

theorem parseLogLineE_ne_error (env : PyEnv) (mapping : PyDict) (line : String)
    (err : PyErr) : parseLogLineE env mapping line ≠ .error err := by
  intro h
  unfold parseLogLineE at h
  split at h
  · simp at h
  · split at h
    · simp at h
    · split at h
      · simp_all
      · split at h
        · simp at h
        · split at h
          · simp at h
          · split at h
            · simp at h
            · split at h
              · rename_i hdg
                rw [dictGet_finishRule_digest] at hdg
                simp at hdg
              · simp at h

/-- The root-file decoder can only return `.ok`, and its value is what
the services-file decoder (the `try/except` wrapper) returns. -/
theorem parseLogLineE_eq_ok (env : PyEnv) (mapping : PyDict) (line : String) :
    parseLogLineE env mapping line = .ok (parseLogLine env mapping line) := by
  cases h : parseLogLineE env mapping line with
  | ok r => simp [parseLogLine, h]
  | error err => exact absurd h (parseLogLineE_ne_error env mapping line err)

/-- Timestamp of every decoded entry: the branch structure of the
timestamp-conversion block applied to the first whitespace token. -/
theorem parseLogLine_timestamp (env : PyEnv) (mapping : PyDict) (line : String)
    (e : LogEntry) (h : parseLogLine env mapping line = some e) :
    e.timestamp = pyParseTimestampToken env ((pySplitWs line).headD "") := by
  have hE : parseLogLineE env mapping line = .ok (some e) := by
    rw [parseLogLineE_eq_ok, h]
  unfold parseLogLineE at hE
  split at hE
  · simp at hE
  · split at hE
    · simp at hE
    · split at hE
      · simp at hE
      · split at hE
        · simp at hE
        · split at hE
          · simp at hE
          · split at hE
            · simp at hE
            · split at hE
              · simp at hE
              · simp only [Except.ok.injEq, Option.some.injEq] at hE
                subst hE
                simp_all [List.headD]

/-- The inlined operator paths of `_check_value_match_fast` agree with
`_check_value_match` on every operator (the remaining operators are
delegated verbatim). -/
theorem checkValueMatchFast_eq (env : PyEnv) (c : FilterCondition)
    (field_value : String) :
    checkValueMatchFast env c field_value = checkValueMatch env c field_value := by
  simp only [checkValueMatchFast, checkValueMatch]
  by_cases h1 : c.operator == "=="
  · simp [h1]
  · by_cases h2 : c.operator == "contains"
    · have h3 : (c.operator == "!=") = false := by
        simp only [beq_iff_eq] at h2 ⊢
        rw [h2]
        simp
      simp [h1, h2, h3]
    · by_cases h3 : c.operator == "!="
      · simp [h1, h2, h3]
      · simp [h1, h2, h3]

/-! ## Claim theorems -/

/-- C1 (counterexample).  On the file `[junkLine, recLineA]` with the
always-true predicate, the threaded fallback emits the physical line
index 1 for the only record, while the global record index of that
record is 0: the match list is not a list of record indices, and the
non-record line does get counted. -/
theorem C1_counterexample :
    applyThreadedFilter 1 envTest predTrue demoLines = [1]
    ∧ recordIndexMatches envTest [] predTrue demoLines = [0]
    ∧ applyThreadedFilter 1 envTest predTrue demoLines
        ≠ recordIndexMatches envTest [] predTrue demoLines := by
  refine ⟨by decide, by decide, by decide⟩

/-- C1 (amended).  When every physical line of the file is a record,
record index and physical line index coincide, and then both the
multiprocessing path and the threaded fallback produce exactly the
sorted list of global record indices of the matching records, for any
predicate insensitive to the worker-side `__rule_label__` enrichment. -/
theorem C1_match_indices_dense (env : PyEnv) (pred : LogEntry → Bool)
    (lines : List String) (hd : DenseFile env [] lines)
    (hlab : ∀ e, pred (addRuleLabel none e) = pred e) :
    applyFilterParallel env [] none pred lines
        = recordIndexMatches env [] pred lines
    ∧ applyThreadedFilter 1 env pred lines
        = recordIndexMatches env [] pred lines := by
  constructor
  · rw [applyFilterParallel_dense env [] none pred lines hd,
      collectMatches_congr _ pred hlab, recordIndexMatches_eq_collect]
  · rw [applyThreadedFilter_one_dense env pred lines hd,
      recordIndexMatches_eq_collect]

/-- C1 (witness): the amended statement applied to the concrete
all-record file `denseLines`. -/
theorem C1_match_indices_dense_witness :
    applyFilterParallel envTest [] none predTrue denseLines
        = recordIndexMatches envTest [] predTrue denseLines
    ∧ applyThreadedFilter 1 envTest predTrue denseLines
        = recordIndexMatches envTest [] predTrue denseLines :=
  C1_match_indices_dense envTest predTrue denseLines (by decide) (fun _ => rfl)

/-- C2 (counterexample).  After `load_file` of `[junkLine, recLineA]`
(one non-record line, one record), `get_total_entries` returns the
physical line count 2, not the record count 1. -/
theorem C2_counterexample :
    getTotalEntries (loadFile 1000 demoLines) = 2
    ∧ (recordsOf envTest [] demoLines).length = 1
    ∧ getTotalEntries (loadFile 1000 demoLines)
        ≠ (recordsOf envTest [] demoLines).length := by
  refine ⟨by decide, by decide, by decide⟩

/-- C2 (amended).  `load_file` resets the store to UNFILTERED with an
empty match list and sets `total_entries` to the number of PHYSICAL
LINES of the file (`file_index.total_lines`), not the record count; in
FILTERED mode `get_total_entries` returns the match-list length. -/
theorem C2_total_entries (cs : Nat) (lines : List String) (st : VirtualState)
    (ms : List Nat) :
    (loadFile cs lines).is_filtered = false
    ∧ (loadFile cs lines).filtered_indices = []
    ∧ getTotalEntries (loadFile cs lines) = lines.length
    ∧ getTotalEntries (applyFilterVia st ms) = ms.length :=
  ⟨rfl, rfl, rfl, rfl⟩

/-- C3 (counterexample).  On a 101-line file, the threaded fallback
with 2 worker threads covers only lines 0..99 (batch size
`max(50, 101 // 2) = 50`, at most 2 batches) and misses the record at
line 100, while 4 worker threads produce 3 batches and find it: the
match list depends on the worker count, and two runs with different
worker counts differ. -/
theorem C3_counterexample :
    applyThreadedFilter 2 envTest predTrue longLines = []
    ∧ applyThreadedFilter 4 envTest predTrue longLines = [100]
    ∧ applyThreadedFilter 2 envTest predTrue longLines
        ≠ applyThreadedFilter 4 envTest predTrue longLines := by
  refine ⟨by decide, by decide, by decide⟩

/-- C3 (amended).  The multiprocessing path's match list does not
depend on the worker count (its 1000-line job partition is fixed and
the result is sorted), and it coincides with the threaded fallback when
every line is a record, the thread partition covers the file (as with
one thread), no interface mapping is set, and the predicate ignores the
`__rule_label__` enrichment; in general the fallback's result varies
with the thread count and differs from the parallel result. -/
theorem C3_parallel_threaded_agree (env : PyEnv) (pred : LogEntry → Bool)
    (lines : List String) (hd : DenseFile env [] lines)
    (hlab : ∀ e, pred (addRuleLabel none e) = pred e) :
    applyFilterParallel env [] none pred lines
      = applyThreadedFilter 1 env pred lines := by
  rw [applyFilterParallel_dense env [] none pred lines hd,
    applyThreadedFilter_one_dense env pred lines hd,
    collectMatches_congr _ pred hlab]

/-- C3 (witness): the amended statement applied to the concrete
all-record file `denseLines`. -/
theorem C3_parallel_threaded_agree_witness :
    applyFilterParallel envTest [] none predTrue denseLines
      = applyThreadedFilter 1 envTest predTrue denseLines :=
  C3_parallel_threaded_agree envTest predTrue denseLines (by decide) (fun _ => rfl)

/-- C4 (counterexample).  With `chunk_size = 1` on the file
`[recLineA, junkLine, recLineB]`, chunk 1 decodes to the empty list, so
`_get_raw_entries` hits its `if not chunk: break` and silently stops:
`get(0,2) = [recA]`, `get(2,1) = [recB]`, but `get(0,3) = [recA]`, so
`get(0,2) ++ get(2,1) ≠ get(0,3)` even though every call terminates
(fuel 9 is ample). -/
theorem C4_counterexample :
    (getRawEntries envTest [] (loadFile 1 gapLines) 9 0 2).isSome = true
    ∧ (getRawEntries envTest [] (loadFile 1 gapLines) 9 2 1).isSome = true
    ∧ (getRawEntries envTest [] (loadFile 1 gapLines) 9 0 3).isSome = true
    ∧ ((getRawEntries envTest [] (loadFile 1 gapLines) 9 0 2).getD []
        ++ (getRawEntries envTest [] (loadFile 1 gapLines) 9 2 1).getD [])
      ≠ (getRawEntries envTest [] (loadFile 1 gapLines) 9 0 3).getD [] := by
  refine ⟨by decide, by decide, by decide, by decide⟩

/-- C4 (amended).  When every physical line of the file is a record,
every chunk is dense, the read loop terminates within `count + 1`
iterations, `get(start, count)` returns exactly the record slice
`records[start .. start+count]`, and range additivity
`get(a, b−a) ++ get(b, c−b) = get(a, c−a)` holds for all
`a ≤ b ≤ c ≤ total`. -/
theorem C4_range_additivity_dense (env : PyEnv) (mapping : PyDict) (cs : Nat)
    (lines : List String) (a b c : Nat) (hcs : 0 < cs)
    (hd : DenseFile env mapping lines)
    (hab : a ≤ b) (hbc : b ≤ c) (_hcn : c ≤ lines.length) :
    getRawEntries env mapping (loadFile cs lines) (b - a + 1) a (b - a)
        = some (((recordsOf env mapping lines).drop a).take (b - a))
    ∧ getRawEntries env mapping (loadFile cs lines) (c - b + 1) b (c - b)
        = some (((recordsOf env mapping lines).drop b).take (c - b))
    ∧ getRawEntries env mapping (loadFile cs lines) (c - a + 1) a (c - a)
        = some (((recordsOf env mapping lines).drop a).take (c - a))
    ∧ ((recordsOf env mapping lines).drop a).take (b - a)
        ++ ((recordsOf env mapping lines).drop b).take (c - b)
      = ((recordsOf env mapping lines).drop a).take (c - a) := by
  refine ⟨?_, ?_, ?_, ?_⟩
  · simpa using
      rawEntriesLoop_dense env mapping cs hcs lines hd (b - a + 1) (b - a) a [] (by omega)
  · simpa using
      rawEntriesLoop_dense env mapping cs hcs lines hd (c - b + 1) (c - b) b [] (by omega)
  · simpa using
      rawEntriesLoop_dense env mapping cs hcs lines hd (c - a + 1) (c - a) a [] (by omega)
  · have h1 : ((recordsOf env mapping lines).drop a).drop (b - a)
        = (recordsOf env mapping lines).drop b := by
      rw [List.drop_drop]
      congr 1
      omega
    rw [← h1, ← List.take_add]
    congr 1
    omega

/-- C4 (witness): the amended statement applied with `chunk_size = 1`
to the concrete all-record file `denseLines` at `a = 0`, `b = 1`,
`c = 2`. -/
theorem C4_range_additivity_dense_witness :
    getRawEntries envTest [] (loadFile 1 denseLines) 2 0 1
        = some (((recordsOf envTest [] denseLines).drop 0).take 1)
    ∧ getRawEntries envTest [] (loadFile 1 denseLines) 2 1 1
        = some (((recordsOf envTest [] denseLines).drop 1).take 1)
    ∧ getRawEntries envTest [] (loadFile 1 denseLines) 3 0 2
        = some (((recordsOf envTest [] denseLines).drop 0).take 2)
    ∧ ((recordsOf envTest [] denseLines).drop 0).take 1
        ++ ((recordsOf envTest [] denseLines).drop 1).take 1
      = ((recordsOf envTest [] denseLines).drop 0).take 2 :=
  C4_range_additivity_dense envTest [] 1 denseLines 0 1 2 (by decide) (by decide)
    (by decide) (by decide) (by decide)

/-- C5 (counterexample).  On the file `[junkLine, recLineA]` the
threaded fallback's match list is `[1]` while the file holds a single
record, so the stored index is not below the total record count. -/
theorem C5_counterexample :
    applyThreadedFilter 1 envTest predTrue demoLines = [1]
    ∧ (recordsOf envTest [] demoLines).length = 1
    ∧ ¬ (∀ x ∈ applyThreadedFilter 1 envTest predTrue demoLines,
          x < (recordsOf envTest [] demoLines).length) := by
  refine ⟨by decide, by decide, by decide⟩

/-- C5 (amended).  After either engine completes, the match list is
strictly increasing and every stored index is below the total number of
PHYSICAL LINES of the file (not below the record count): per-job lists
are strictly increasing, jobs own disjoint ascending index windows, and
the final sort keeps the already-sorted concatenation. -/
theorem C5_sorted_matches (env : PyEnv) (mapping : PyDict) (labels : Option PyDict)
    (pred : LogEntry → Bool) (lines : List String) (T : Nat) :
    (applyFilterParallel env mapping labels pred lines).Pairwise (· < ·)
    ∧ (∀ x ∈ applyFilterParallel env mapping labels pred lines, x < lines.length)
    ∧ (applyThreadedFilter T env pred lines).Pairwise (· < ·)
    ∧ (∀ x ∈ applyThreadedFilter T env pred lines, x < lines.length) := by
  obtain ⟨hp1, hp2⟩ := applyFilterParallel_pairwise env mapping labels pred lines
  obtain ⟨ht1, ht2⟩ := applyThreadedFilter_pairwise T env pred lines
  exact ⟨hp1, hp2, ht1, ht2⟩

/-- C5 (witness): the amended statement at a concrete file and thread
count. -/
theorem C5_sorted_matches_witness :
    (applyFilterParallel envTest [] none predTrue demoLines).Pairwise (· < ·)
    ∧ (∀ x ∈ applyFilterParallel envTest [] none predTrue demoLines,
        x < demoLines.length)
    ∧ (applyThreadedFilter 1 envTest predTrue demoLines).Pairwise (· < ·)
    ∧ (∀ x ∈ applyThreadedFilter 1 envTest predTrue demoLines,
        x < demoLines.length) :=
  C5_sorted_matches envTest [] none predTrue demoLines 1

/-- C6 (code bug).  The plain evaluator (`FilterExpression.evaluate`,
no short-circuit, strictly left-associative) and the short-circuiting
`OptimizedFilterFunction` disagree on the expression
`action == 'pass' AND protoname == 'tcp' OR action == 'block'` at the
entry `action='block', protoname='udp'`: left-associative evaluation
gives `((F ∧ F) ∨ T) = T` (the value the repository's own unit test
`test_evaluate_complex_expression` asserts), while the optimized loop
returns early with `False` upon seeing connective AND with a false
running result, ignoring the later OR. -/
theorem C6_evaluator_divergence :
    FilterExpression.evaluate envTest exprMixed entryBlockUdp = true
    ∧ OptimizedFilterFunction.call envTest optMixed entryBlockUdp = false := by
  refine ⟨by decide, by decide⟩

/-- C7 (counterexample).  On the record line with syslog timestamp
`Jan 15 10:30:45`, the claim expects the month-day form parsed with the
wall-clock year, i.e. the instant 2024-01-15 10:30:45 under
`envTest.now = 2024-06-01 00:00:00`; the code instead stores the ingest
instant `datetime.now()` itself (the `strptime` call sees only the
whitespace-free first token `Jan` and always fails), and `LogEntry`
carries no `timestamp_synthetic` attribute at all. -/
theorem C7_counterexample :
    (parseLogLine envTest [] syslogRecLine).map (fun e => e.timestamp)
        = some envTest.now
    ∧ envTest.now ≠ ⟨2024, 1, 15, 10, 30, 45⟩ := by
  refine ⟨by decide, by decide⟩

/-- C7 (amended).  For every accepted line: when the first whitespace
token contains `'T'` the timestamp is `fromisoformat` of the token with
`'T'` replaced by a space, falling back to the ingest instant; when it
does not, the `strptime('%b %d %H:%M:%S')` attempt always fails — the
token is whitespace-free while the format demands internal whitespace
(and its default year would be 1900, not the wall-clock year) — so the
timestamp is always the ingest instant `datetime.now()`; no
`timestamp_synthetic` flag exists to be set. -/
theorem C7_timestamp_branches (env : PyEnv) (mapping : PyDict) (line : String)
    (e : LogEntry) (h : parseLogLine env mapping line = some e) :
    (pyIn "T" ((pySplitWs line).headD "") = true →
      e.timestamp = (pyFromIso (pyReplaceChar 'T' ' '
        ((pySplitWs line).headD ""))).getD env.now)
    ∧ (pyIn "T" ((pySplitWs line).headD "") = false →
      strptimeMonthDay ((pySplitWs line).headD "") = none
      ∧ e.timestamp = env.now) := by
  have hts := parseLogLine_timestamp env mapping line e h
  constructor
  · intro hT
    rw [hts]
    unfold pyParseTimestampToken
    rw [if_pos hT]
  · intro hT
    have hnone : strptimeMonthDay ((pySplitWs line).headD "") = none := by
      cases hp : pySplitWs line with
      | nil => rfl
      | cons t ts =>
        refine strptimeMonthDay_eq_none_of_no_ws _ ?_
        intro ch hch
        refine pySplitWs_no_ws line _ ?_ ch hch
        rw [hp]
        simp [List.headD]
    refine ⟨hnone, ?_⟩
    rw [hts]
    unfold pyParseTimestampToken
    rw [if_neg (by simpa using hT), hnone]
    rfl

/-- C7 (witness): the amended statement applied to a concrete accepted
line with a syslog month-day timestamp. -/
theorem C7_timestamp_branches_witness :
    parseLogLine envTest [] syslogRecLine
        = some ((parseLogLine envTest [] syslogRecLine).getD default)
    ∧ strptimeMonthDay ((pySplitWs syslogRecLine).headD "") = none
    ∧ ((parseLogLine envTest [] syslogRecLine).getD default).timestamp
        = envTest.now :=
  ⟨by decide,
    ((C7_timestamp_branches envTest [] syslogRecLine
        ((parseLogLine envTest [] syslogRecLine).getD default)
        (by decide)).2 (by decide)).1,
    ((C7_timestamp_branches envTest [] syslogRecLine
        ((parseLogLine envTest [] syslogRecLine).getD default)
        (by decide)).2 (by decide)).2⟩

/-- C8 (counterexample).  Constructing a condition whose regex pattern
is malformed succeeds — `FilterCondition.__init__` performs four plain
attribute assignments and no validation, so no `PredicateCompile`
error (no such exception class exists in the code base) is raised at
expression-construction time. -/
theorem C8_counterexample :
    filterConditionInit "src" "regex" "[invalid(regex" false
      = .ok ⟨"src", "regex", "[invalid(regex", false⟩ := by
  decide

/-- C8 (amended).  Construction never raises (it performs no
validation), and evaluation never raises either: a malformed regex
makes the condition evaluate to `False` (the `re.compile` exception is
swallowed by the evaluator's catch-all), and a numeric comparison over
non-numeric operands evaluates to `False` (the `float()` exception is
swallowed by `_numeric_compare`). -/
theorem C8_no_compile_validation (f v : String) (cs : Bool) (env : PyEnv)
    (entry : LogEntry) :
    filterConditionInit f "regex" v cs = .ok ⟨f, "regex", v, cs⟩
    ∧ (env.regexCompile v (!cs) = none →
        FilterCondition.evaluate env ⟨f, "regex", v, cs⟩ entry = false)
    ∧ ((∀ s, env.pyFloat s = none) →
        FilterCondition.evaluate env ⟨f, ">", v, cs⟩ entry = false) := by
  refine ⟨rfl, ?_, ?_⟩
  · intro hre
    have hcheck : ∀ fv, checkValueMatch env ⟨f, "regex", v, cs⟩ fv = false := by
      intro fv
      simp [checkValueMatch, hre]
    unfold FilterCondition.evaluate
    split
    · simp [hcheck]
    · simp [hcheck]
  · intro hfl
    have hcheck : ∀ fv, checkValueMatch env ⟨f, ">", v, cs⟩ fv = false := by
      intro fv
      simp [checkValueMatch, numericCompare, hfl]
    unfold FilterCondition.evaluate
    split
    · simp [hcheck]
    · simp [hcheck]

/-- C8 (witness): the amended statement at a concrete malformed
pattern, environment and entry (in `envTest` both `re.compile` and
`float()` always fail). -/
theorem C8_no_compile_validation_witness :
    filterConditionInit "src" "regex" "(" false = .ok ⟨"src", "regex", "(", false⟩
    ∧ FilterCondition.evaluate envTest ⟨"src", "regex", "(", false⟩ entryBlockUdp
        = false
    ∧ FilterCondition.evaluate envTest ⟨"src", ">", "(", false⟩ entryBlockUdp
        = false :=
  ⟨(C8_no_compile_validation "src" "(" false envTest entryBlockUdp).1,
    (C8_no_compile_validation "src" "(" false envTest entryBlockUdp).2.1 rfl,
    (C8_no_compile_validation "src" "(" false envTest entryBlockUdp).2.2
      (fun _ => rfl)⟩

/-- C9 (confirmed).  A condition on the field `interface` matches iff
the physical `interface` value or the resolved `interface_display`
value satisfies the operator against the comparison value — a boolean
OR-fold over the two independently tested fields, not a concatenation —
and this holds identically in the plain evaluator
(`FilterCondition.evaluate`) and in the optimized one
(`_evaluate_single_condition`, whose inlined operator paths agree with
`_check_value_match`). -/
theorem C9_interface_or_fold (env : PyEnv) (c : FilterCondition)
    (entry : LogEntry) (h : c.field = "interface") :
    FilterCondition.evaluate env c entry
        = (checkValueMatch env c (entry.get "interface")
            || checkValueMatch env c (entry.get "interface_display"))
    ∧ evalSingleConditionFast env c entry
        = (checkValueMatch env c (entry.get "interface")
            || checkValueMatch env c (entry.get "interface_display")) := by
  constructor
  · unfold FilterCondition.evaluate
    rw [if_pos (by simp [h])]
    try simp only []
    split <;> simp_all
  · unfold evalSingleConditionFast
    rw [if_pos (by simp [h])]
    try simp only []
    simp only [checkValueMatchFast_eq]
    split <;> simp_all

/-- Condition `interface == 'lan'` (case-insensitive). -/
def condIface : FilterCondition := ⟨"interface", "==", "lan", false⟩

/-- Entry whose physical interface is `em0` and whose resolved display
name is `LAN` (the spec's interface-resolution scenario). -/
def entryIface : LogEntry :=
  ⟨"", [("interface", "em0"), ("interface_display", "LAN")],
    ⟨2024, 1, 1, 0, 0, 0⟩, "opnsense", ""⟩

/-- C9 (witness): the OR-fold applied to a concrete condition and
entry. -/
theorem C9_interface_or_fold_witness :
    FilterCondition.evaluate envTest condIface entryIface
        = (checkValueMatch envTest condIface (entryIface.get "interface")
            || checkValueMatch envTest condIface (entryIface.get "interface_display"))
    ∧ evalSingleConditionFast envTest condIface entryIface
        = (checkValueMatch envTest condIface (entryIface.get "interface")
            || checkValueMatch envTest condIface (entryIface.get "interface_display")) :=
  C9_interface_or_fold envTest condIface entryIface rfl

/-- C10 (confirmed).  The root-file decoder, with its unguarded
subscripts modelled as explicit exception sites, can only return `.ok`:
for every input string (fewer than four tokens, `filterlog` as final
token, truncated CSV payloads, unparseable timestamps included) it
returns either a record or "not a record" and never raises — and its
value is exactly what the services-file decoder (the same logic under a
catch-all `try/except`) returns. -/
theorem C10_parse_total (env : PyEnv) (mapping : PyDict) (line : String) :
    parseLogLineE env mapping line = .ok (parseLogLine env mapping line) :=
  parseLogLineE_eq_ok env mapping line
